import Mathlib

/-!
Shallow embedding of the rio binary container format (package rio, file
rio.go): the header/record/block/footer codecs and the Options bit-packing.

Go byte slices are modelled as `List Nat` (each entry a byte value), Go
`uint32` fields as `Nat` (with `% 2^32` applied wherever Go's fixed-width
arithmetic truncates), Go `int` as `Int`, and Go errors as an explicit
error type.  Decoders take the receiver value and the remaining input and
return the (possibly partially) updated receiver together with either the
unconsumed input or the error, mirroring Go's mutate-the-receiver style.
-/

namespace Rio

/-- Errors surfaced by the codecs: `eof` models `io.EOF`, `unexpectedEOF`
models `io.ErrUnexpectedEOF`, and `errorf msg` models the wrapped errors
built by `errorf` in rio.go (the static part of the format string; the
`%v`-rendering of a wrapped inner error is elided). -/
inductive RioErr where
  | eof
  | unexpectedEOF
  | errorf (msg : String)
deriving DecidableEq

/-- Encode a Go `uint32` value (a `Nat` reduced mod `2^32`) as four
little-endian bytes, as `binary.Write(w, Endian, v)` does with
`Endian = binary.LittleEndian`. -/
def u32le (x : Nat) : List Nat :=
  [x % 2^32 % 2^8, x % 2^32 / 2^8 % 2^8, x % 2^32 / 2^16 % 2^8, x % 2^32 / 2^24 % 2^8]

/-- Decode four little-endian bytes into a `uint32` value, as
`binary.Read(r, Endian, &v)` does for a `uint32` destination. -/
def u32ofLE (bs : List Nat) : Nat :=
  bs.getD 0 0 + bs.getD 1 0 * 2^8 + bs.getD 2 0 * 2^16 + bs.getD 3 0 * 2^24

/-- Encode a Go `int64` as eight little-endian bytes (two's complement),
as `binary.Write` does for the footer's `Meta` field. -/
def i64le (m : Int) : List Nat :=
  let n : Nat := (m.emod (2^64)).toNat
  [n % 2^8, n / 2^8 % 2^8, n / 2^16 % 2^8, n / 2^24 % 2^8,
   n / 2^32 % 2^8, n / 2^40 % 2^8, n / 2^48 % 2^8, n / 2^56 % 2^8]

/-- Decode eight little-endian bytes into an `int64` (two's complement). -/
def i64ofLE (bs : List Nat) : Int :=
  let n : Nat := bs.getD 0 0 + bs.getD 1 0 * 2^8 + bs.getD 2 0 * 2^16 +
    bs.getD 3 0 * 2^24 + bs.getD 4 0 * 2^32 + bs.getD 5 0 * 2^40 +
    bs.getD 6 0 * 2^48 + bs.getD 7 0 * 2^56
  if n < 2^63 then (n : Int) else (n : Int) - 2^64

/-- Semantics of `io.ReadFull(r, buf)` with `len(buf) = n` on a
`bytes.Reader` holding `bs`: all `n` bytes, or `io.EOF` when no byte was
available, or `io.ErrUnexpectedEOF` on a partial read.  `binary.Read`
performs exactly this full read before decoding. -/
def readFull (n : Nat) (bs : List Nat) : Except RioErr (List Nat × List Nat) :=
  if n ≤ bs.length then .ok (bs.take n, bs.drop n)
  else if bs.length = 0 then .error .eof
  else .error .unexpectedEOF

/-- Semantics of a single `(*bytes.Reader).Read(buf)` call with
`len(buf) = n`: `io.EOF` when the reader is already exhausted (even for an
empty buffer), otherwise up to `n` bytes with no error — a short read is
NOT reported as an error. -/
def bytesReaderRead (n : Nat) (bs : List Nat) : Except RioErr (List Nat × List Nat) :=
  if bs.length = 0 then .error .eof
  else .ok (bs.take n, bs.drop n)

/-- Read one little-endian `uint32`, as `binary.Read(r, Endian, &v)`. -/
def readU32 (bs : List Nat) : Except RioErr (Nat × List Nat) :=
  match readFull 4 bs with
  | .error e => .error e
  | .ok (c, rest) => .ok (u32ofLE c, rest)

/-- Read one little-endian `int64`, as `binary.Read(r, Endian, &v)`. -/
def readI64 (bs : List Nat) : Except RioErr (Int × List Nat) :=
  match readFull 8 bs with
  | .error e => .error e
  | .ok (c, rest) => .ok (i64ofLE c, rest)

/-- Modelled from the spec: `rioAlign` is code of this repository that is
not under src/ (rio.go calls it but its file is absent); the spec gives the
padding rule `align4(n) = n + ((4 - n mod 4) mod 4)`. -/
def rioAlign (n : Nat) : Nat := n + ((4 - n % 4) % 4)

/-- Frame marker constant `recFrame = {0xab, 0xad, 0xca, 0xfe}`. -/
def recFrame : List Nat := [0xab, 0xad, 0xca, 0xfe]

/-- Frame marker constant `blkFrame = {0xde, 0xad, 0xbe, 0xef}`. -/
def blkFrame : List Nat := [0xde, 0xad, 0xbe, 0xef]

/-- Frame marker constant `ftrFrame = {0xca, 0xfe, 0xba, 0xbe}`. -/
def ftrFrame : List Nat := [0xca, 0xfe, 0xba, 0xbe]

/-- Mask constant `gMaskCodec = Options(0x00000fff)`. -/
def gMaskCodec : Nat := 0x00000fff

/-- Mask constant `gMaskLevel = Options(0x0000f000)`. -/
def gMaskLevel : Nat := 0x0000f000

/-- Mask constant `gMaskCompr = Options(0xffff0000)`. -/
def gMaskCompr : Nat := 0xffff0000

/-- The Go standard library constant `compress/flate.DefaultCompression`. -/
def flateDefaultCompression : Int := -1

/-- Modelled from the spec: the `CompressorKind` enumeration values are code
of this repository that is not under src/; the spec says an "unspecified"
kind is the default, so `CompressDefault` is the zero value of the
(16-bit) kind field. -/
def CompressDefault : Nat := 0

/-- Modelled from the spec: `CompressZlib` is the "standard codec" kind that
`NewOptions` substitutes for an unspecified kind; its exact enum value is
not in src/, only that it is a fixed nonzero 16-bit value. -/
def CompressZlib : Nat := 3

/-- Go conversion of an `int` to a `uint32` (two's complement reduction). -/
def intToUInt32 (i : Int) : Nat := (i % (2^32 : Int)).toNat

/-- Method `Options.CompressorKind`: `CompressorKind((o & gMaskCompr) >> 16)`. -/
def Options.CompressorKind (o : Nat) : Nat := (o &&& gMaskCompr) >>> 16

/-- Method `Options.CompressorLevel`: extract bits 12..15, mapping the
sentinel `0xf` to `flate.DefaultCompression`. -/
def Options.CompressorLevel (o : Nat) : Int :=
  let lvl : Nat := (o &&& gMaskLevel) >>> 12
  if lvl = 0xf then flateDefaultCompression else (lvl : Int)

/-- Method `Options.CompressorCodec`: `int(o & gMaskCodec)`. -/
def Options.CompressorCodec (o : Nat) : Int := ((o &&& gMaskCodec : Nat) : Int)

/-- Function `NewOptions(compr CompressorKind, lvl int, codec int)`.  The
`compr` argument has Go type `uint16` (`CompressorKind`), mirrored by the
`% 2^16` at its use; the shifts are `uint32` arithmetic, mirrored by
`% 2^32`. -/
def NewOptions (compr : Nat) (lvl : Int) (codec : Int) : Nat :=
  let lvl := if lvl ≤ flateDefaultCompression ∨ 0xf ≤ lvl then (0xf : Int) else lvl
  let compr := if compr = CompressDefault then CompressZlib else compr
  ((compr % 2^16) <<< 16) % 2^32 ||| (intToUInt32 lvl <<< 12) % 2^32 |||
    (intToUInt32 codec &&& gMaskCodec)

/-- Type `rioHeader`: payload length (uint32) and 4-byte frame marker. -/
structure rioHeader where
  Len : Nat
  Frame : List Nat
deriving DecidableEq

/-- Method `(*rioHeader).RioMarshal`: write `Len` then `Frame`.  A
`bytes.Buffer` sink never fails, so the encoder is a pure function to the
written bytes. -/
def rioHeader.RioMarshal (hdr : rioHeader) : List Nat :=
  u32le hdr.Len ++ hdr.Frame

/-- Method `(*rioHeader).RioUnmarshal`: read `Len` (passing a bare `io.EOF`
through, wrapping any other error), then read `Frame` (wrapping any
error). -/
def rioHeader.RioUnmarshal (hdr : rioHeader) (bs : List Nat) :
    rioHeader × Except RioErr (List Nat) :=
  match readU32 bs with
  | .error .eof => (hdr, .error .eof)
  | .error _ => (hdr, .error (.errorf "rio: read header length failed"))
  | .ok (len, r1) =>
    match readFull 4 r1 with
    | .error _ => ({ hdr with Len := len }, .error (.errorf "rio: read header frame failed"))
    | .ok (fr, r2) => (⟨len, fr⟩, .ok r2)

/-- Type `rioRecord`. -/
structure rioRecord where
  Header : rioHeader
  Options : Nat
  CLen : Nat
  XLen : Nat
  Name : List Nat
deriving DecidableEq

/-- Method `(*rioRecord).RioMarshal`: header, options, compressed length,
uncompressed length, name length, name bytes, zero padding to a four byte
boundary. -/
def rioRecord.RioMarshal (rec : rioRecord) : List Nat :=
  rec.Header.RioMarshal ++ u32le rec.Options ++ u32le rec.CLen ++ u32le rec.XLen ++
  u32le rec.Name.length ++ rec.Name ++
  List.replicate (rioAlign rec.Name.length - rec.Name.length) 0

/-- Method `(*rioRecord).unmarshalHeader`: decode the header (passing
`io.EOF` and `io.ErrUnexpectedEOF` through, wrapping anything else), then
require `Header.Frame == recFrame`. -/
def rioRecord.unmarshalHeader (rec : rioRecord) (bs : List Nat) :
    rioRecord × Except RioErr (List Nat) :=
  match rec.Header.RioUnmarshal bs with
  | (hdr, .error .eof) => ({ rec with Header := hdr }, .error .eof)
  | (hdr, .error .unexpectedEOF) => ({ rec with Header := hdr }, .error .unexpectedEOF)
  | (hdr, .error _) =>
    ({ rec with Header := hdr }, .error (.errorf "rio: read record header failed"))
  | (hdr, .ok rest) =>
    if hdr.Frame ≠ recFrame then
      ({ rec with Header := hdr }, .error (.errorf "rio: read record header corrupted"))
    else ({ rec with Header := hdr }, .ok rest)

/-- Method `(*rioRecord).unmarshalData`: read `Options`, `CLen`, `XLen`,
`NameLength`, then a single `r.Read` into a zeroed buffer of
`rioAlign(nsize)` bytes (the returned byte count is discarded), and trim
the buffer to `nsize` for `Name`. -/
def rioRecord.unmarshalData (rec : rioRecord) (bs : List Nat) :
    rioRecord × Except RioErr (List Nat) :=
  match readU32 bs with
  | .error _ => (rec, .error (.errorf "rio: read record options failed"))
  | .ok (opts, r1) =>
  let rec1 := { rec with Options := opts }
  match readU32 r1 with
  | .error _ => (rec1, .error (.errorf "rio: read record compr-len failed"))
  | .ok (clen, r2) =>
  let rec2 := { rec1 with CLen := clen }
  match readU32 r2 with
  | .error _ => (rec2, .error (.errorf "rio: read record len failed failed"))
  | .ok (xlen, r3) =>
  let rec3 := { rec2 with XLen := xlen }
  match readU32 r3 with
  | .error _ => (rec3, .error (.errorf "rio: read record name-len failed"))
  | .ok (nsize, r4) =>
  match bytesReaderRead (rioAlign nsize) r4 with
  | .error _ => (rec3, .error (.errorf "rio: read record name failed"))
  | .ok (got, r5) =>
  let buf := got ++ List.replicate (rioAlign nsize - got.length) 0
  ({ rec3 with Name := buf.take nsize }, .ok r5)

/-- Method `(*rioRecord).RioUnmarshal`: header phase then data phase; never
touches block payload bytes. -/
def rioRecord.RioUnmarshal (rec : rioRecord) (bs : List Nat) :
    rioRecord × Except RioErr (List Nat) :=
  match rec.unmarshalHeader bs with
  | (rec1, .error e) => (rec1, .error e)
  | (rec1, .ok rest) => rec1.unmarshalData rest

/-- Type `rioBlock`. -/
structure rioBlock where
  Header : rioHeader
  Version : Nat
  Name : List Nat
  Data : List Nat
deriving DecidableEq

/-- Method `(*rioBlock).RioMarshal`: header, version, name length, name
bytes plus zero padding, data bytes plus zero padding.  The short-write
checks cannot fire on a buffer sink. -/
def rioBlock.RioMarshal (blk : rioBlock) : List Nat :=
  blk.Header.RioMarshal ++ u32le blk.Version ++ u32le blk.Name.length ++ blk.Name ++
  List.replicate (rioAlign blk.Name.length - blk.Name.length) 0 ++ blk.Data ++
  List.replicate (rioAlign blk.Data.length - blk.Data.length) 0

/-- Method `(*rioBlock).RioUnmarshal`: header (with frame check against
`blkFrame`), version, name length, `io.ReadFull` of `rioAlign(nsize)` name
bytes (with a byte-count check) trimmed to `nsize`, then `io.ReadFull` of
`rioAlign(Header.Len)` data bytes (with a byte-count check) trimmed to
`Header.Len`. -/
def rioBlock.RioUnmarshal (blk : rioBlock) (bs : List Nat) :
    rioBlock × Except RioErr (List Nat) :=
  match blk.Header.RioUnmarshal bs with
  | (hdr, .error .eof) => ({ blk with Header := hdr }, .error .eof)
  | (hdr, .error .unexpectedEOF) => ({ blk with Header := hdr }, .error .unexpectedEOF)
  | (hdr, .error _) =>
    ({ blk with Header := hdr }, .error (.errorf "rio: read block header failed"))
  | (hdr, .ok r0) =>
  let blk1 := { blk with Header := hdr }
  if hdr.Frame ≠ blkFrame then
    (blk1, .error (.errorf "rio: read block header corrupted"))
  else
  match readU32 r0 with
  | .error _ => (blk1, .error (.errorf "rio: read block version failed"))
  | .ok (ver, r1) =>
  let blk2 := { blk1 with Version := ver }
  match readU32 r1 with
  | .error _ => (blk2, .error (.errorf "rio: read block name-len failed"))
  | .ok (nsize, r2) =>
  match readFull (rioAlign nsize) r2 with
  | .error _ => (blk2, .error (.errorf "rio: read block name failed"))
  | .ok (name, r3) =>
  if name.length ≠ rioAlign nsize then
    (blk2, .error (.errorf "rio: read too few bytes for name"))
  else
  let blk3 := { blk2 with Name := name.take nsize }
  match readFull (rioAlign hdr.Len) r3 with
  | .error _ => (blk3, .error (.errorf "rio: read block data failed"))
  | .ok (data, r4) =>
  if data.length ≠ rioAlign hdr.Len then
    (blk3, .error (.errorf "rio: read too few bytes for data"))
  else
  ({ blk3 with Data := data.take hdr.Len }, .ok r4)

/-- Type `rioFooter`. -/
structure rioFooter where
  Header : rioHeader
  Meta : Int
deriving DecidableEq

/-- Method `(*rioFooter).RioMarshal`: header then the 8-byte `Meta`. -/
def rioFooter.RioMarshal (ftr : rioFooter) : List Nat :=
  ftr.Header.RioMarshal ++ i64le ftr.Meta

/-- Method `(*rioFooter).unmarshalHeader`: decode the header (only a bare
`io.EOF` passes through; anything else is wrapped), then require
`Header.Frame == ftrFrame`. -/
def rioFooter.unmarshalHeader (ftr : rioFooter) (bs : List Nat) :
    rioFooter × Except RioErr (List Nat) :=
  match ftr.Header.RioUnmarshal bs with
  | (hdr, .error .eof) => ({ ftr with Header := hdr }, .error .eof)
  | (hdr, .error _) =>
    ({ ftr with Header := hdr }, .error (.errorf "rio: read footer header failed"))
  | (hdr, .ok rest) =>
    if hdr.Frame ≠ ftrFrame then
      ({ ftr with Header := hdr }, .error (.errorf "rio: read footer header corrupted"))
    else ({ ftr with Header := hdr }, .ok rest)

/-- Method `(*rioFooter).unmarshalData`: read the 8-byte `Meta`. -/
def rioFooter.unmarshalData (ftr : rioFooter) (bs : List Nat) :
    rioFooter × Except RioErr (List Nat) :=
  match readI64 bs with
  | .error _ => (ftr, .error (.errorf "rio: read footer meta failed"))
  | .ok (m, rest) => ({ ftr with Meta := m }, .ok rest)

/-- Method `(*rioFooter).RioUnmarshal`: header phase then data phase. -/
def rioFooter.RioUnmarshal (ftr : rioFooter) (bs : List Nat) :
    rioFooter × Except RioErr (List Nat) :=
  match ftr.unmarshalHeader bs with
  | (ftr1, .error e) => (ftr1, .error e)
  | (ftr1, .ok rest) => ftr1.unmarshalData rest


/-! ## Arithmetic helpers for the Options bit packing -/

/-- Masking with `(2^m - 1) <<< k` isolates the `m`-bit field at bit `k`. -/
lemma and_mask_window (x k m : Nat) :
    x &&& ((2^m - 1) <<< k) = x / 2^k % 2^m * 2^k := by
  apply Nat.eq_of_testBit_eq
  intro j
  rw [Nat.testBit_and, Nat.testBit_shiftLeft, Nat.testBit_two_pow_sub_one]
  have hrhs : x / 2^k % 2^m * 2^k = 2^k * (x / 2^k % 2^m) + 0 := by ring
  rw [hrhs, Nat.testBit_mul_pow_two_add _ (Nat.two_pow_pos k) j]
  rcases Nat.lt_or_ge j k with hj | hj
  · simp [hj, Nat.not_le_of_lt hj]
  · have hnj : ¬ (j < k) := Nat.not_lt_of_le hj
    simp only [hnj, if_false, Nat.testBit_mod_two_pow]
    rw [← Nat.shiftRight_eq_div_pow, Nat.testBit_shiftRight]
    have hkj : k + (j - k) = j := by omega
    rw [hkj]
    have hdec : decide (j ≥ k) = true := by simpa using hj
    rw [hdec]
    cases Nat.testBit x j <;> cases (decide (j - k < m)) <;> simp

/-- The compression-level clamp in `NewOptions` always lands in `[0, 15]`. -/
lemma intToUInt32_clamp_le (lvl : Int) :
    intToUInt32 (if lvl ≤ flateDefaultCompression ∨ 0xf ≤ lvl then (0xf : Int) else lvl) ≤ 15 := by
  split
  · decide
  · rename_i h
    push_neg at h
    obtain ⟨h1, h2⟩ := h
    unfold flateDefaultCompression at h1
    unfold intToUInt32
    have h0 : (0 : Int) ≤ lvl := by omega
    have hlt : lvl < 2^32 := by omega
    rw [Int.emod_eq_of_lt h0 hlt]
    omega

/-- Value-level view of `NewOptions`: the packed word is the plain sum of
its three (disjoint) bit fields. -/
lemma NewOptions_eq (compr : Nat) (lvl codec : Int) :
    NewOptions compr lvl codec =
      (if compr = CompressDefault then CompressZlib else compr) % 2^16 * 2^16 +
      intToUInt32 (if lvl ≤ flateDefaultCompression ∨ 0xf ≤ lvl then (0xf : Int) else lvl) * 2^12 +
      intToUInt32 codec % 2^12 := by
  unfold NewOptions
  dsimp only
  set K := (if compr = CompressDefault then CompressZlib else compr) % 2^16 with hKdef
  set L := intToUInt32 (if lvl ≤ flateDefaultCompression ∨ 0xf ≤ lvl then (0xf : Int) else lvl)
    with hLdef
  have hKlt : K < 2^16 := Nat.mod_lt _ (by norm_num)
  have hLle : L ≤ 15 := intToUInt32_clamp_le lvl
  have hCm : intToUInt32 codec &&& gMaskCodec = intToUInt32 codec % 2^12 := by
    have hg : gMaskCodec = 2^12 - 1 := by decide
    rw [hg, Nat.and_pow_two_sub_one_eq_mod]
  rw [hCm]
  have hClt : intToUInt32 codec % 2^12 < 2^12 := Nat.mod_lt _ (by norm_num)
  have h1 : (K <<< 16) % 2^32 = K * 2^16 := by
    rw [Nat.shiftLeft_eq]
    exact Nat.mod_eq_of_lt (by omega)
  have h2 : (L <<< 12) % 2^32 = L * 2^12 := by
    rw [Nat.shiftLeft_eq]
    exact Nat.mod_eq_of_lt (by omega)
  rw [h1, h2]
  have h3 : K * 2^16 ||| L * 2^12 = K * 2^16 + L * 2^12 := by
    have h := Nat.mul_add_lt_is_or (b := L * 2^12) (i := 16) (by omega) K
    rw [Nat.mul_comm (2^16) K] at h
    omega
  rw [h3]
  have h4 : K * 2^16 + L * 2^12 = 2^12 * (2^4 * K + L) := by ring
  rw [h4]
  have h5 := Nat.mul_add_lt_is_or (b := intToUInt32 codec % 2^12) (i := 12) hClt (2^4 * K + L)
  omega

/-- Extracting the kind field from a three-field sum. -/
lemma kind_extract (K L C : Nat) (hK : K < 2^16) (hL : L < 2^4) (hC : C < 2^12) :
    Options.CompressorKind (K * 2^16 + L * 2^12 + C) = K := by
  unfold Options.CompressorKind
  have hm : gMaskCompr = (2^16 - 1) <<< 16 := by decide
  rw [hm, and_mask_window, Nat.shiftRight_eq_div_pow,
    Nat.mul_div_cancel _ (by norm_num : 0 < 2^16)]
  omega

/-- Extracting the raw level bits from a three-field sum. -/
lemma level_bits_extract (K L C : Nat) (hL : L < 2^4) (hC : C < 2^12) :
    ((K * 2^16 + L * 2^12 + C) &&& gMaskLevel) >>> 12 = L := by
  have hm : gMaskLevel = (2^4 - 1) <<< 12 := by decide
  rw [hm, and_mask_window, Nat.shiftRight_eq_div_pow,
    Nat.mul_div_cancel _ (by norm_num : 0 < 2^12)]
  omega

/-- Extracting the codec field from a three-field sum. -/
lemma codec_extract (K L C : Nat) (hC : C < 2^12) :
    (K * 2^16 + L * 2^12 + C) &&& gMaskCodec = C := by
  have hm : gMaskCodec = 2^12 - 1 := by decide
  rw [hm, Nat.and_pow_two_sub_one_eq_mod]
  omega


/-! ## Claims about the Options codec (C3, C4, C9) -/

/-- C3 counterexample: the claim fails at `kind = CompressDefault`: the
packed word unpacks to `CompressZlib`, not the `CompressDefault` that was
passed in (with level 5 and codec 7, both in range). -/
theorem C3_counterexample :
    Options.CompressorKind (NewOptions CompressDefault 5 7) = CompressZlib ∧
    CompressZlib ≠ CompressDefault := by decide

/-- C3 (amended): for every compressor kind other than `CompressDefault`
(a 16-bit value), every level in `[0, 14]` and every codec in `[0, 4095]`,
unpacking the word produced by `NewOptions` returns exactly the inputs. -/
theorem C3_options_roundtrip (compr : Nat) (lvl codec : Int)
    (h1 : compr < 2^16) (h2 : compr ≠ CompressDefault)
    (h3 : 0 ≤ lvl) (h4 : lvl ≤ 14) (h5 : 0 ≤ codec) (h6 : codec ≤ 4095) :
    Options.CompressorKind (NewOptions compr lvl codec) = compr ∧
    Options.CompressorLevel (NewOptions compr lvl codec) = lvl ∧
    Options.CompressorCodec (NewOptions compr lvl codec) = codec := by
  have hcond : ¬ (lvl ≤ flateDefaultCompression ∨ (0xf : Int) ≤ lvl) := by
    unfold flateDefaultCompression
    omega
  have hlvl : intToUInt32 (if lvl ≤ flateDefaultCompression ∨ (0xf : Int) ≤ lvl
      then (0xf : Int) else lvl) = lvl.toNat := by
    rw [if_neg hcond]
    unfold intToUInt32
    rw [Int.emod_eq_of_lt h3 (by omega)]
  have hcodec : intToUInt32 codec % 2^12 = codec.toNat := by
    unfold intToUInt32
    rw [Int.emod_eq_of_lt h5 (by omega)]
    exact Nat.mod_eq_of_lt (by omega)
  have hco : NewOptions compr lvl codec = compr * 2^16 + lvl.toNat * 2^12 + codec.toNat := by
    rw [NewOptions_eq, hlvl, hcodec, if_neg h2, Nat.mod_eq_of_lt h1]
  have hLlt : lvl.toNat < 2^4 := by omega
  have hClt : codec.toNat < 2^12 := by omega
  refine ⟨?_, ?_, ?_⟩
  · rw [hco]
    exact kind_extract _ _ _ h1 hLlt hClt
  · unfold Options.CompressorLevel
    rw [hco, level_bits_extract _ _ _ hLlt hClt]
    dsimp only
    rw [if_neg (by omega)]
    rw [Int.toNat_of_nonneg h3]
  · unfold Options.CompressorCodec
    rw [hco, codec_extract _ _ _ hClt]
    rw [Int.toNat_of_nonneg h5]

/-- C3 witness: the amended round trip evaluated at kind 2, level 5,
codec 7. -/
theorem C3_options_roundtrip_witness :
    Options.CompressorKind (NewOptions 2 5 7) = 2 ∧
    Options.CompressorLevel (NewOptions 2 5 7) = 5 ∧
    Options.CompressorCodec (NewOptions 2 5 7) = 7 :=
  C3_options_roundtrip 2 5 7 (by decide) (by decide) (by decide) (by decide)
    (by decide) (by decide)

/-- C4 counterexample: `NewOptions(kind, 0, codec)` does NOT normalize the
level to the sentinel: at kind `CompressZlib`, level 0, codec 0, the level
bits of the packed word are 0, not 0xF. -/
theorem C4_counterexample :
    ((NewOptions CompressZlib 0 0 &&& gMaskLevel) >>> 12) = 0 ∧ (0 : Nat) ≠ 0xf := by
  decide

/-- C4 (amended): `NewOptions` sets the level bits to the sentinel `0xF`
whenever the requested level is `≤ flate.DefaultCompression` (that is,
`≤ -1`) or `≥ 15`; a requested level of 0 is kept as level bits 0. -/
theorem C4_level_normalization (compr : Nat) (lvl codec : Int)
    (h : lvl ≤ flateDefaultCompression ∨ (0xf : Int) ≤ lvl) :
    ((NewOptions compr lvl codec &&& gMaskLevel) >>> 12) = 0xf ∧
    ((NewOptions compr 0 codec &&& gMaskLevel) >>> 12) = 0 := by
  have hK : ∀ c : Nat, (if c = CompressDefault then CompressZlib else c) % 2^16 < 2^16 :=
    fun c => Nat.mod_lt _ (by norm_num)
  have hC : intToUInt32 codec % 2^12 < 2^12 := Nat.mod_lt _ (by norm_num)
  constructor
  · rw [NewOptions_eq, if_pos h]
    have h15 : intToUInt32 (0xf : Int) = 15 := by decide
    rw [h15]
    exact level_bits_extract _ _ _ (by norm_num) hC
  · rw [NewOptions_eq]
    have hcond : ¬ ((0 : Int) ≤ flateDefaultCompression ∨ (0xf : Int) ≤ 0) := by
      unfold flateDefaultCompression
      omega
    rw [if_neg hcond]
    have h0 : intToUInt32 (0 : Int) = 0 := by decide
    rw [h0]
    exact level_bits_extract _ _ _ (by norm_num) hC

/-- C4 witness: the amended normalization evaluated at kind 2, level -1,
codec 0. -/
theorem C4_level_normalization_witness :
    ((-1 : Int) ≤ flateDefaultCompression ∨ (0xf : Int) ≤ -1) ∧
    (((NewOptions 2 (-1) 0 &&& gMaskLevel) >>> 12) = 0xf ∧
     ((NewOptions 2 0 0 &&& gMaskLevel) >>> 12) = 0) :=
  ⟨Or.inl (by decide), C4_level_normalization 2 (-1) 0 (Or.inl (by decide))⟩

/-- C9: for every kind, level, and every integer codec argument (also
outside `[0, 4095]`), `CompressorCodec(NewOptions(kind, level, codec))`
equals `codec mod 2^12`: oversized or negative codec ids are silently
truncated to their low 12 bits, never rejected. -/
theorem C9_codec_truncation (compr : Nat) (lvl codec : Int) :
    Options.CompressorCodec (NewOptions compr lvl codec) = codec % (2^12 : Int) := by
  have hK : (if compr = CompressDefault then CompressZlib else compr) % 2^16 < 2^16 :=
    Nat.mod_lt _ (by norm_num)
  have hL : intToUInt32 (if lvl ≤ flateDefaultCompression ∨ (0xf : Int) ≤ lvl
      then (0xf : Int) else lvl) < 2^4 :=
    Nat.lt_of_le_of_lt (intToUInt32_clamp_le lvl) (by norm_num)
  have hC : intToUInt32 codec % 2^12 < 2^12 := Nat.mod_lt _ (by norm_num)
  unfold Options.CompressorCodec
  rw [NewOptions_eq, codec_extract _ _ _ hC]
  unfold intToUInt32
  push_cast
  rw [Int.toNat_of_nonneg (Int.emod_nonneg codec (by norm_num : (4294967296 : Int) ≠ 0))]
  rw [Int.emod_emod_of_dvd codec (by norm_num : ((4096 : Int)) ∣ 4294967296)]

/-! ## Byte-reader case lemmas -/

/-- A full read succeeds when enough bytes remain. -/
lemma readFull_of_le (n : Nat) (bs : List Nat) (h : n ≤ bs.length) :
    readFull n bs = .ok (bs.take n, bs.drop n) := by
  unfold readFull
  rw [if_pos h]

/-- A read of a positive count from an exhausted source is a clean EOF. -/
lemma readFull_eof (n : Nat) (bs : List Nat) (h0 : bs.length = 0) (hn : 0 < n) :
    readFull n bs = .error .eof := by
  unfold readFull
  rw [if_neg (by omega), if_pos h0]

/-- A partial read is an unexpected EOF. -/
lemma readFull_short (n : Nat) (bs : List Nat) (h1 : bs.length ≠ 0) (h2 : bs.length < n) :
    readFull n bs = .error .unexpectedEOF := by
  unfold readFull
  rw [if_neg (by omega), if_neg h1]

/-- Reading an exact prefix returns that prefix and the tail. -/
lemma readFull_exact (x y : List Nat) : readFull x.length (x ++ y) = .ok (x, y) := by
  rw [readFull_of_le _ _ (by simp)]
  rw [List.take_left, List.drop_left]

/-- Length of the four-byte little-endian encoding. -/
lemma u32le_length (x : Nat) : (u32le x).length = 4 := rfl

/-- Little-endian round trip at the `uint32` width. -/
lemma u32ofLE_u32le (x : Nat) : u32ofLE (u32le x) = x % 2^32 := by
  unfold u32le u32ofLE
  simp only [List.getD_cons_zero, List.getD_cons_succ]
  omega

/-- Reading a `uint32` off its own encoding recovers the value (reduced to
the `uint32` range). -/
lemma readU32_exact (v : Nat) (rest : List Nat) :
    readU32 (u32le v ++ rest) = .ok (v % 2^32, rest) := by
  unfold readU32
  have h := readFull_exact (u32le v) rest
  rw [u32le_length] at h
  simp only [h, u32ofLE_u32le]

/-- Header decode on an exact encoding: `Len` then a four-byte frame. -/
lemma header_unmarshal_exact (hdr0 : rioHeader) (len : Nat) (fr rest : List Nat)
    (hfr : fr.length = 4) :
    rioHeader.RioUnmarshal hdr0 (u32le len ++ (fr ++ rest)) = (⟨len % 2^32, fr⟩, .ok rest) := by
  have h4 : readFull 4 (fr ++ rest) = .ok (fr, rest) := by
    have h := readFull_exact fr rest
    rwa [hfr] at h
  simp only [rioHeader.RioUnmarshal, readU32_exact, h4]

/-! ## Claim C6: clean EOF only before any byte of Length -/

/-- C6: header decode returns the distinct clean-EOF result exactly when
end-of-data occurs before any byte of `Len` has been read; truncation
inside `Len`, between `Len` and `Frame`, or inside `Frame` yields a
wrapped corrupt-stream/short-read error, never the clean EOF. -/
theorem C6_header_clean_eof (hdr : rioHeader) (bs : List Nat) :
    ((rioHeader.RioUnmarshal hdr bs).2 = .error .eof ↔ bs.length = 0) ∧
    (bs.length ≠ 0 → bs.length < 8 →
      ((rioHeader.RioUnmarshal hdr bs).2 = .error (.errorf "rio: read header length failed") ∨
       (rioHeader.RioUnmarshal hdr bs).2 = .error (.errorf "rio: read header frame failed"))) := by
  unfold rioHeader.RioUnmarshal readU32
  rcases Nat.eq_zero_or_pos bs.length with h0 | h0
  · simp only [readFull_eof 4 bs h0 (by omega)]
    constructor
    · exact ⟨fun _ => h0, fun _ => trivial⟩
    · intro hne _
      exact absurd h0 hne
  rcases Nat.lt_or_ge bs.length 4 with h4 | h4
  · simp only [readFull_short 4 bs (by omega) h4]
    constructor
    · constructor
      · intro hc
        simp at hc
      · intro hc
        omega
    · intro _ _
      exact Or.inl trivial
  simp only [readFull_of_le 4 bs h4]
  rcases Nat.lt_or_ge bs.length 8 with h8 | h8
  · rcases Nat.eq_zero_or_pos (bs.drop 4).length with hd0 | hd0
    · simp only [readFull_eof 4 (bs.drop 4) hd0 (by omega)]
      constructor
      · constructor
        · intro hc
          simp at hc
        · intro hc
          omega
      · intro _ _
        exact Or.inr trivial
    · simp only [readFull_short 4 (bs.drop 4) (by omega)
        (by simp only [List.length_drop]; omega)]
      constructor
      · constructor
        · intro hc
          simp at hc
        · intro hc
          omega
      · intro _ _
        exact Or.inr trivial
  · simp only [readFull_of_le 4 (bs.drop 4) (by simp only [List.length_drop]; omega)]
    constructor
    · constructor
      · intro hc
        simp at hc
      · intro hc
        omega
    · intro _ h8b
      exact absurd h8b (by omega)

/-- C6 witness: the clean-EOF law evaluated on the empty input and on a
two-byte (mid-`Len`) truncation. -/
theorem C6_header_clean_eof_witness :
    (rioHeader.RioUnmarshal ⟨0, [0, 0, 0, 0]⟩ []).2 = .error .eof ∧
    ((rioHeader.RioUnmarshal ⟨0, [0, 0, 0, 0]⟩ [1, 2]).2 =
        .error (.errorf "rio: read header length failed") ∨
     (rioHeader.RioUnmarshal ⟨0, [0, 0, 0, 0]⟩ [1, 2]).2 =
        .error (.errorf "rio: read header frame failed")) :=
  ⟨(C6_header_clean_eof ⟨0, [0, 0, 0, 0]⟩ []).1.mpr rfl,
   (C6_header_clean_eof ⟨0, [0, 0, 0, 0]⟩ [1, 2]).2 (by decide) (by decide)⟩

/-! ## Padding lemmas -/

/-- Padding never shrinks a length. -/
lemma le_rioAlign (n : Nat) : n ≤ rioAlign n := by
  unfold rioAlign
  omega

/-- A zero-padded list has exactly the aligned length. -/
lemma padded_length (l : List Nat) :
    (l ++ List.replicate (rioAlign l.length - l.length) 0).length = rioAlign l.length := by
  have h := le_rioAlign l.length
  simp
  omega

/-- Taking the original length back off a padded list recovers the list. -/
lemma padded_take (n : Nat) (l : List Nat) (h : n = l.length) :
    (l ++ List.replicate (rioAlign l.length - l.length) 0).take n = l := by
  rw [h, List.take_left]

/-- `io.ReadFull` of the aligned length consumes exactly the padded field. -/
lemma readFull_padded (l tail : List Nat) :
    readFull (rioAlign l.length) (l ++ (List.replicate (rioAlign l.length - l.length) 0 ++ tail)) =
      .ok (l ++ List.replicate (rioAlign l.length - l.length) 0, tail) := by
  rw [← List.append_assoc]
  have h := readFull_exact (l ++ List.replicate (rioAlign l.length - l.length) 0) tail
  rwa [padded_length] at h

/-- A single `bytes.Reader.Read` of the aligned length at the end of the
input consumes exactly the padded field — provided the field is nonempty,
so the reader is not already exhausted. -/
lemma bytesReaderRead_padded (l : List Nat) (h : 1 ≤ l.length) :
    bytesReaderRead (rioAlign l.length) (l ++ List.replicate (rioAlign l.length - l.length) 0) =
      .ok (l ++ List.replicate (rioAlign l.length - l.length) 0, []) := by
  unfold bytesReaderRead
  have hlen := padded_length l
  have halign := le_rioAlign l.length
  rw [if_neg (by omega)]
  rw [List.take_of_length_le (by omega), List.drop_of_length_le (by omega)]

/-- `io.ReadFull` of the aligned length at the end of the input consumes
exactly the padded field (empty fields included, unlike a bare `Read`). -/
lemma readFull_padded_end (l : List Nat) :
    readFull (rioAlign l.length) (l ++ List.replicate (rioAlign l.length - l.length) 0) =
      .ok (l ++ List.replicate (rioAlign l.length - l.length) 0, []) := by
  have h := readFull_exact (l ++ List.replicate (rioAlign l.length - l.length) 0) []
  rw [List.append_nil] at h
  rwa [padded_length] at h

/-- Record decode inverts record encode for a well-formed record with a
nonempty name. -/
lemma record_roundtrip_aux (rec0 : rioRecord) (L O C X : Nat) (N : List Nat)
    (h2 : L < 2^32) (h3 : O < 2^32) (h4 : C < 2^32) (h5 : X < 2^32)
    (h6 : 1 ≤ N.length) (h7 : N.length < 2^32) :
    rioRecord.RioUnmarshal rec0 (rioRecord.RioMarshal ⟨⟨L, recFrame⟩, O, C, X, N⟩) =
      (⟨⟨L, recFrame⟩, O, C, X, N⟩, .ok []) := by
  unfold rioRecord.RioMarshal rioHeader.RioMarshal
  dsimp only
  simp only [List.append_assoc]
  unfold rioRecord.RioUnmarshal rioRecord.unmarshalHeader
  simp only [header_unmarshal_exact rec0.Header L recFrame
    (u32le O ++ (u32le C ++ (u32le X ++ (u32le N.length ++
      (N ++ List.replicate (rioAlign N.length - N.length) 0))))) rfl]
  rw [Nat.mod_eq_of_lt h2]
  rw [if_neg (by simp : ¬ ((⟨L, recFrame⟩ : rioHeader).Frame ≠ recFrame))]
  unfold rioRecord.unmarshalData
  simp only [readU32_exact, Nat.mod_eq_of_lt h3, Nat.mod_eq_of_lt h4, Nat.mod_eq_of_lt h5,
    Nat.mod_eq_of_lt h7]
  simp only [bytesReaderRead_padded N h6]
  simp only [padded_length, Nat.sub_self, List.replicate_zero, List.append_nil]
  simp only [padded_take N.length N rfl]

/-- Block decode inverts block encode when `Header.Len` equals the unpadded
data length. -/
lemma block_roundtrip_aux (blk0 : rioBlock) (V : Nat) (N D : List Nat)
    (h9 : V < 2^32) (h10 : N.length < 2^32) (h12 : D.length < 2^32) :
    rioBlock.RioUnmarshal blk0 (rioBlock.RioMarshal ⟨⟨D.length, blkFrame⟩, V, N, D⟩) =
      (⟨⟨D.length, blkFrame⟩, V, N, D⟩, .ok []) := by
  unfold rioBlock.RioMarshal rioHeader.RioMarshal
  dsimp only
  simp only [List.append_assoc]
  unfold rioBlock.RioUnmarshal
  simp only [header_unmarshal_exact blk0.Header D.length blkFrame
    (u32le V ++ (u32le N.length ++ (N ++ (List.replicate (rioAlign N.length - N.length) 0 ++
      (D ++ List.replicate (rioAlign D.length - D.length) 0))))) rfl]
  rw [Nat.mod_eq_of_lt h12]
  rw [if_neg (by simp : ¬ ((⟨D.length, blkFrame⟩ : rioHeader).Frame ≠ blkFrame))]
  simp only [readU32_exact, Nat.mod_eq_of_lt h9, Nat.mod_eq_of_lt h10]
  simp only [readFull_padded]
  simp [padded_length, readFull_padded_end, padded_take N.length N rfl,
    padded_take D.length D rfl]
  rw [if_pos (by have := le_rioAlign N.length; omega),
    if_pos (by have := le_rioAlign D.length; omega)]

/-! ## Claim C1: encode/decode round trip for records and blocks -/

/-- C1 counterexample: the round trip fails as claimed, in two ways.  A
record with an empty name encodes fine but its decode fails ("read record
name failed"): the single `r.Read` into the empty name buffer hits the
exhausted reader and returns `io.EOF`.  A block whose `Header.Len` follows
the spec's encode rule `4 + align4(len(Name)) + align4(len(Data))` (here
`4 + 0 + 4 = 8` for an empty name and 4 data bytes) fails to decode
("read block data failed"): the decoder reads `align4(Header.Len)` data
bytes, more than were written. -/
theorem C1_counterexample :
    (rioRecord.RioUnmarshal ⟨⟨0, [0, 0, 0, 0]⟩, 0, 0, 0, []⟩
        (rioRecord.RioMarshal ⟨⟨0, recFrame⟩, 7, 8, 9, []⟩)).2 =
      .error (.errorf "rio: read record name failed") ∧
    (rioBlock.RioUnmarshal ⟨⟨0, [0, 0, 0, 0]⟩, 0, [], []⟩
        (rioBlock.RioMarshal ⟨⟨8, blkFrame⟩, 1, [], [1, 2, 3, 4]⟩)).2 =
      .error (.errorf "rio: read block data failed") := ⟨rfl, rfl⟩

/-- C1 (amended): decoding the bytes produced by encoding recovers the
value field-for-field, for every record whose frame is the record marker,
whose scalar fields are `uint32` values and whose name is NONEMPTY, and for
every block whose frame is the block marker, whose scalars are `uint32`
values and whose `Header.Len` equals the unpadded data length (the encode
rule the decoder actually inverts, rather than the spec's
`4 + align4(name) + align4(data)`). -/
theorem C1_roundtrip (rec rec0 : rioRecord) (blk blk0 : rioBlock)
    (h1 : rec.Header.Frame = recFrame) (h2 : rec.Header.Len < 2^32)
    (h3 : rec.Options < 2^32) (h4 : rec.CLen < 2^32) (h5 : rec.XLen < 2^32)
    (h6 : 1 ≤ rec.Name.length) (h7 : rec.Name.length < 2^32)
    (h8 : blk.Header.Frame = blkFrame) (h9 : blk.Version < 2^32)
    (h10 : blk.Name.length < 2^32) (h11 : blk.Header.Len = blk.Data.length)
    (h12 : blk.Data.length < 2^32) :
    rioRecord.RioUnmarshal rec0 (rioRecord.RioMarshal rec) = (rec, .ok []) ∧
    rioBlock.RioUnmarshal blk0 (rioBlock.RioMarshal blk) = (blk, .ok []) := by
  obtain ⟨⟨L, F⟩, O, C, X, N⟩ := rec
  obtain ⟨⟨BL, BF⟩, V, BN, BD⟩ := blk
  have hF : F = recFrame := h1
  have hBF : BF = blkFrame := h8
  have hBL : BL = BD.length := h11
  subst hF hBF hBL
  exact ⟨record_roundtrip_aux rec0 L O C X N h2 h3 h4 h5 h6 h7,
    block_roundtrip_aux blk0 V BN BD h9 h10 h12⟩

/-- C1 witness: the amended round trip evaluated on a concrete record
(name "a") and block (name "v", two data bytes). -/
theorem C1_roundtrip_witness :
    rioRecord.RioUnmarshal ⟨⟨0, [0, 0, 0, 0]⟩, 0, 0, 0, []⟩
        (rioRecord.RioMarshal ⟨⟨12, recFrame⟩, 1, 2, 3, [97]⟩) =
      (⟨⟨12, recFrame⟩, 1, 2, 3, [97]⟩, .ok []) ∧
    rioBlock.RioUnmarshal ⟨⟨0, [0, 0, 0, 0]⟩, 0, [], []⟩
        (rioBlock.RioMarshal ⟨⟨2, blkFrame⟩, 1, [118], [5, 6]⟩) =
      (⟨⟨2, blkFrame⟩, 1, [118], [5, 6]⟩, .ok []) :=
  C1_roundtrip ⟨⟨12, recFrame⟩, 1, 2, 3, [97]⟩ ⟨⟨0, [0, 0, 0, 0]⟩, 0, 0, 0, []⟩
    ⟨⟨2, blkFrame⟩, 1, [118], [5, 6]⟩ ⟨⟨0, [0, 0, 0, 0]⟩, 0, [], []⟩
    rfl (by decide) (by decide) (by decide) (by decide) (by decide) (by decide)
    rfl (by decide) (by decide) rfl (by decide)

/-! ## Inversion lemmas for successful decodes -/

/-- Inverting a successful `readFull`. -/
lemma readFull_ok_inv {n : Nat} {bs c r : List Nat} (h : readFull n bs = .ok (c, r)) :
    c = bs.take n ∧ r = bs.drop n ∧ n ≤ bs.length := by
  unfold readFull at h
  by_cases hle : n ≤ bs.length
  · rw [if_pos hle] at h
    simp only [Except.ok.injEq, Prod.mk.injEq] at h
    exact ⟨h.1.symm, h.2.symm, hle⟩
  · rw [if_neg hle] at h
    split at h <;> simp at h

/-- Inverting a successful `readU32`. -/
lemma readU32_ok_inv {bs : List Nat} {v : Nat} {r : List Nat}
    (h : readU32 bs = .ok (v, r)) :
    v = u32ofLE (bs.take 4) ∧ r = bs.drop 4 ∧ 4 ≤ bs.length := by
  unfold readU32 at h
  cases hf : readFull 4 bs with
  | error e =>
    rw [hf] at h
    simp at h
  | ok p =>
    obtain ⟨c, r2⟩ := p
    rw [hf] at h
    simp only [Except.ok.injEq, Prod.mk.injEq] at h
    obtain ⟨hc, hr, hle⟩ := readFull_ok_inv hf
    exact ⟨by rw [← h.1, hc], by rw [← h.2, hr], hle⟩

/-- Inverting a successful header decode: the length came from the first
four bytes, the frame is bytes 4..8, and at least eight bytes existed. -/
lemma header_unmarshal_ok_facts (hdr0 hdr : rioHeader) (bs rest : List Nat)
    (h : rioHeader.RioUnmarshal hdr0 bs = (hdr, .ok rest)) :
    hdr.Len = u32ofLE (bs.take 4) ∧ hdr.Frame = (bs.drop 4).take 4 ∧
    rest = (bs.drop 4).drop 4 ∧ 8 ≤ bs.length := by
  unfold rioHeader.RioUnmarshal readU32 at h
  rcases Nat.lt_or_ge bs.length 4 with h4 | h4
  · rcases Nat.eq_zero_or_pos bs.length with h0 | h0
    · rw [readFull_eof 4 bs h0 (by omega)] at h
      simp at h
    · rw [readFull_short 4 bs (by omega) h4] at h
      simp at h
  · simp only [readFull_of_le 4 bs h4] at h
    rcases Nat.lt_or_ge (bs.drop 4).length 4 with hd4 | hd4
    · rcases Nat.eq_zero_or_pos (bs.drop 4).length with hd0 | hd0
      · rw [readFull_eof 4 (bs.drop 4) hd0 (by omega)] at h
        simp at h
      · rw [readFull_short 4 (bs.drop 4) (by omega) hd4] at h
        simp at h
    · simp only [readFull_of_le 4 (bs.drop 4) hd4] at h
      simp only [Prod.mk.injEq, Except.ok.injEq] at h
      obtain ⟨hhdr, hrest⟩ := h
      subst hhdr
      have hlen : 8 ≤ bs.length := by
        simp only [List.length_drop] at hd4
        omega
      exact ⟨rfl, rfl, hrest.symm, hlen⟩

/-- A successful record decode implies the record marker stood at
bytes 4..8 of the input. -/
lemma record_unmarshal_ok_marker (rec0 rec : rioRecord) (bs rest : List Nat)
    (h : rioRecord.RioUnmarshal rec0 bs = (rec, .ok rest)) :
    (bs.drop 4).take 4 = recFrame := by
  unfold rioRecord.RioUnmarshal at h
  rcases hh : rioRecord.unmarshalHeader rec0 bs with ⟨rec1, res⟩
  rw [hh] at h
  cases res with
  | error e => simp at h
  | ok r =>
    unfold rioRecord.unmarshalHeader at hh
    rcases hdrres : rioHeader.RioUnmarshal rec0.Header bs with ⟨hdr, hres⟩
    rw [hdrres] at hh
    cases hres with
    | error e => cases e <;> simp at hh
    | ok rrest =>
      dsimp only at hh
      by_cases hfr : hdr.Frame ≠ recFrame
      · rw [if_pos hfr] at hh
        simp at hh
      · push_neg at hfr
        have hfacts := header_unmarshal_ok_facts rec0.Header hdr bs rrest hdrres
        rw [← hfacts.2.1]
        exact hfr

/-- A successful footer decode implies the footer marker stood at
bytes 4..8 of the input. -/
lemma footer_unmarshal_ok_marker (ftr0 ftr : rioFooter) (bs rest : List Nat)
    (h : rioFooter.RioUnmarshal ftr0 bs = (ftr, .ok rest)) :
    (bs.drop 4).take 4 = ftrFrame := by
  unfold rioFooter.RioUnmarshal at h
  rcases hh : rioFooter.unmarshalHeader ftr0 bs with ⟨ftr1, res⟩
  rw [hh] at h
  cases res with
  | error e => simp at h
  | ok r =>
    unfold rioFooter.unmarshalHeader at hh
    rcases hdrres : rioHeader.RioUnmarshal ftr0.Header bs with ⟨hdr, hres⟩
    rw [hdrres] at hh
    cases hres with
    | error e => cases e <;> simp at hh
    | ok rrest =>
      dsimp only at hh
      by_cases hfr : hdr.Frame ≠ ftrFrame
      · rw [if_pos hfr] at hh
        simp at hh
      · push_neg at hfr
        have hfacts := header_unmarshal_ok_facts ftr0.Header hdr bs rrest hdrres
        rw [← hfacts.2.1]
        exact hfr

/-- Full inversion of a successful block decode: the marker stood at bytes
4..8, `Data` was trimmed to exactly `Header.Len` bytes after reading
`rioAlign(Header.Len)` of them, and the byte budget is
`16 + rioAlign(NameLen) + rioAlign(Header.Len)`. -/
lemma block_unmarshal_ok_facts (blk0 blk : rioBlock) (bs rest : List Nat)
    (h : rioBlock.RioUnmarshal blk0 bs = (blk, .ok rest)) :
    blk.Data.length = blk.Header.Len ∧
    (bs.drop 4).take 4 = blkFrame ∧
    bs.length = 16 + rioAlign blk.Name.length + rioAlign blk.Header.Len + rest.length := by
  unfold rioBlock.RioUnmarshal at h
  rcases hdrres : rioHeader.RioUnmarshal blk0.Header bs with ⟨hdr, hres⟩
  rw [hdrres] at h
  cases hres with
  | error e => cases e <;> simp at h
  | ok r0 =>
    dsimp only at h
    have hfacts := header_unmarshal_ok_facts blk0.Header hdr bs r0 hdrres
    by_cases hfr : hdr.Frame ≠ blkFrame
    · rw [if_pos hfr] at h
      simp at h
    · push_neg at hfr
      rw [if_neg (by simp [hfr])] at h
      cases hu1 : readU32 r0 with
      | error e =>
        rw [hu1] at h
        simp at h
      | ok p1 =>
        obtain ⟨ver, r1⟩ := p1
        rw [hu1] at h
        dsimp only at h
        obtain ⟨hver, hr1, hlen1⟩ := readU32_ok_inv hu1
        cases hu2 : readU32 r1 with
        | error e =>
          rw [hu2] at h
          simp at h
        | ok p2 =>
          obtain ⟨nsize, r2⟩ := p2
          rw [hu2] at h
          dsimp only at h
          obtain ⟨hnsize, hr2, hlen2⟩ := readU32_ok_inv hu2
          cases hu3 : readFull (rioAlign nsize) r2 with
          | error e =>
            rw [hu3] at h
            simp at h
          | ok p3 =>
            obtain ⟨name, r3⟩ := p3
            rw [hu3] at h
            dsimp only at h
            obtain ⟨hname, hr3, hlen3⟩ := readFull_ok_inv hu3
            have hnamelen : name.length = rioAlign nsize := by
              rw [hname, List.length_take]
              omega
            rw [if_neg (by simp [hnamelen])] at h
            cases hu4 : readFull (rioAlign hdr.Len) r3 with
            | error e =>
              rw [hu4] at h
              simp at h
            | ok p4 =>
              obtain ⟨data, r4⟩ := p4
              rw [hu4] at h
              dsimp only at h
              obtain ⟨hdata, hr4, hlen4⟩ := readFull_ok_inv hu4
              have hdatalen : data.length = rioAlign hdr.Len := by
                rw [hdata, List.length_take]
                omega
              rw [if_neg (by simp [hdatalen])] at h
              simp only [Prod.mk.injEq] at h
              obtain ⟨hblk, hrest⟩ := h
              have hrest4 : rest = r4 := by
                cases hrest
                rfl
              subst hblk
              have htrimname : (name.take nsize).length = nsize := by
                rw [List.length_take, hnamelen]
                have := le_rioAlign nsize
                omega
              have htrimdata : (data.take hdr.Len).length = hdr.Len := by
                rw [List.length_take, hdatalen]
                have := le_rioAlign hdr.Len
                omega
              refine ⟨htrimdata, hfacts.2.1 ▸ hfr, ?_⟩
              have e0 : r0 = (bs.drop 4).drop 4 := hfacts.2.2.1
              have e8 : 8 ≤ bs.length := hfacts.2.2.2
              have l0 : r0.length = bs.length - 8 := by
                rw [e0]
                simp only [List.length_drop]
                omega
              have l1 : r1.length = r0.length - 4 := by
                rw [hr1]
                simp
              have l2 : r2.length = r1.length - 4 := by
                rw [hr2]
                simp
              have l3 : r3.length = r2.length - rioAlign nsize := by
                rw [hr3]
                simp
              have l4 : r4.length = r3.length - rioAlign hdr.Len := by
                rw [hr4]
                simp
              dsimp only
              rw [htrimname, hrest4]
              omega

/-! ## Claims C2 and C10: decoded block data length -/

/-- C2 counterexample: a block with `Header.Len = 8` and an empty name
decodes successfully from `Header ++ Version ++ NameLen(0) ++ 8 data
bytes` with `len(Data) = 8`, while the claimed derivation
`Header.Length - 4 - align4(NameLength)` gives `8 - 4 - 0 = 4`. -/
theorem C2_counterexample :
    (rioBlock.RioUnmarshal ⟨⟨0, [0, 0, 0, 0]⟩, 0, [], []⟩
        (u32le 8 ++ blkFrame ++ u32le 1 ++ u32le 0 ++
          [1, 2, 3, 4, 5, 6, 7, 8])).1.Data.length = 8 ∧
    (rioBlock.RioUnmarshal ⟨⟨0, [0, 0, 0, 0]⟩, 0, [], []⟩
        (u32le 8 ++ blkFrame ++ u32le 1 ++ u32le 0 ++
          [1, 2, 3, 4, 5, 6, 7, 8])).2 = .ok ([] : List Nat) ∧
    (8 : Nat) ≠ 8 - 4 - rioAlign 0 :=
  ⟨rfl, rfl, by decide⟩

/-- C2 (amended): for every successfully decoded block,
`len(Data) = Header.Len` — the decoder derives the unpadded data length as
`Header.Len` itself (not `Header.Len - 4 - align4(NameLen)`) and reads
`align4(Header.Len)` bytes then trims, so the input spends exactly
`16 + align4(NameLen) + align4(Header.Len)` bytes on the block. -/
theorem C2_block_data_derivation (blk0 blk : rioBlock) (bs rest : List Nat)
    (h : rioBlock.RioUnmarshal blk0 bs = (blk, .ok rest)) :
    blk.Data.length = blk.Header.Len ∧
    bs.length = 16 + rioAlign blk.Name.length + rioAlign blk.Header.Len + rest.length :=
  ⟨(block_unmarshal_ok_facts blk0 blk bs rest h).1,
   (block_unmarshal_ok_facts blk0 blk bs rest h).2.2⟩

/-- C2 witness: the amended data-length law evaluated on a concrete
decoded block (name "v", two data bytes, `Header.Len = 2`). -/
theorem C2_block_data_derivation_witness :
    (⟨⟨2, blkFrame⟩, 1, [118], [5, 6]⟩ : rioBlock).Data.length =
      (⟨⟨2, blkFrame⟩, 1, [118], [5, 6]⟩ : rioBlock).Header.Len ∧
    (rioBlock.RioMarshal ⟨⟨2, blkFrame⟩, 1, [118], [5, 6]⟩).length =
      16 + rioAlign (⟨⟨2, blkFrame⟩, 1, [118], [5, 6]⟩ : rioBlock).Name.length +
      rioAlign (⟨⟨2, blkFrame⟩, 1, [118], [5, 6]⟩ : rioBlock).Header.Len +
      ([] : List Nat).length :=
  C2_block_data_derivation ⟨⟨0, [0, 0, 0, 0]⟩, 0, [], []⟩
    ⟨⟨2, blkFrame⟩, 1, [118], [5, 6]⟩
    (rioBlock.RioMarshal ⟨⟨2, blkFrame⟩, 1, [118], [5, 6]⟩) [] (by rfl)

/-- C10: after every successful block decode, `Data` has exactly
`Header.Len` bytes, independent of the name length and of the value
`4 + align4(NameLength)`. -/
theorem C10_block_data_length (blk0 blk : rioBlock) (bs rest : List Nat)
    (h : rioBlock.RioUnmarshal blk0 bs = (blk, .ok rest)) :
    blk.Data.length = blk.Header.Len :=
  (block_unmarshal_ok_facts blk0 blk bs rest h).1

/-- C10 witness: the data-length invariant evaluated on a concrete decoded
block with an empty name and three data bytes. -/
theorem C10_block_data_length_witness :
    (⟨⟨3, blkFrame⟩, 2, [], [7, 8, 9]⟩ : rioBlock).Data.length =
      (⟨⟨3, blkFrame⟩, 2, [], [7, 8, 9]⟩ : rioBlock).Header.Len :=
  C10_block_data_length ⟨⟨0, [0, 0, 0, 0]⟩, 0, [], []⟩
    ⟨⟨3, blkFrame⟩, 2, [], [7, 8, 9]⟩
    (rioBlock.RioMarshal ⟨⟨3, blkFrame⟩, 2, [], [7, 8, 9]⟩) [] (by rfl)

/-! ## Claim C5: frame-marker corruption detection -/

/-- Overwriting byte `4 + i` of a header-led encoding lands inside the
four-byte frame field. -/
lemma set_frame_in_encoding (len : Nat) (fr tail : List Nat) (i b : Nat)
    (hfr : fr.length = 4) (hi : i < 4) :
    (u32le len ++ (fr ++ tail)).set (4 + i) b = u32le len ++ (fr.set i b ++ tail) := by
  rw [List.set_append_right (4 + i) b (by rw [u32le_length]; omega)]
  rw [u32le_length]
  have hidx : 4 + i - 4 = i := by omega
  rw [hidx]
  rw [List.set_append_left i b (by omega)]

/-- Changing one byte of a four-byte marker to a different value changes
the marker. -/
lemma frame_set_ne (fr : List Nat) (i b : Nat) (hlen : fr.length = 4) (hi : i < 4)
    (hb : b ≠ fr.getD i 0) : fr.set i b ≠ fr := by
  intro hEq
  apply hb
  have hilen : i < (fr.set i b).length := by
    rw [List.length_set]
    omega
  have h2 : (fr.set i b).getD i 0 = fr.getD i 0 := by rw [hEq]
  have h3 : (fr.set i b).getD i 0 = b := by
    rw [List.getD_eq_getElem (fr.set i b) 0 hilen]
    exact List.getElem_set_self hilen
  exact h3.symm.trans h2

/-- Flipping a frame byte of an encoded record makes its decode fail with
the record-corruption error. -/
lemma record_flip_fails (rec0 rec : rioRecord) (i b : Nat) (hi : i < 4)
    (hfr : rec.Header.Frame = recFrame) (hb : b ≠ recFrame.getD i 0) :
    (rioRecord.RioUnmarshal rec0 ((rioRecord.RioMarshal rec).set (4 + i) b)).2 =
      .error (.errorf "rio: read record header corrupted") := by
  obtain ⟨⟨L, F⟩, O, C, X, N⟩ := rec
  have hF : F = recFrame := hfr
  subst hF
  unfold rioRecord.RioMarshal rioHeader.RioMarshal
  dsimp only
  simp only [List.append_assoc]
  rw [set_frame_in_encoding L recFrame _ i b rfl hi]
  unfold rioRecord.RioUnmarshal rioRecord.unmarshalHeader
  simp only [header_unmarshal_exact rec0.Header L (recFrame.set i b) _
    (by rw [List.length_set]; rfl : (recFrame.set i b).length = 4)]
  rw [if_pos (frame_set_ne recFrame i b rfl hi hb)]

/-- Flipping a frame byte of an encoded block makes its decode fail with
the block-corruption error. -/
lemma block_flip_fails (blk0 blk : rioBlock) (i b : Nat) (hi : i < 4)
    (hfr : blk.Header.Frame = blkFrame) (hb : b ≠ blkFrame.getD i 0) :
    (rioBlock.RioUnmarshal blk0 ((rioBlock.RioMarshal blk).set (4 + i) b)).2 =
      .error (.errorf "rio: read block header corrupted") := by
  obtain ⟨⟨L, F⟩, V, N, D⟩ := blk
  have hF : F = blkFrame := hfr
  subst hF
  unfold rioBlock.RioMarshal rioHeader.RioMarshal
  dsimp only
  simp only [List.append_assoc]
  rw [set_frame_in_encoding L blkFrame _ i b rfl hi]
  unfold rioBlock.RioUnmarshal
  simp only [header_unmarshal_exact blk0.Header L (blkFrame.set i b) _
    (by rw [List.length_set]; rfl : (blkFrame.set i b).length = 4)]
  rw [if_pos (frame_set_ne blkFrame i b rfl hi hb)]

/-- Flipping a frame byte of an encoded footer makes its decode fail with
the footer-corruption error. -/
lemma footer_flip_fails (ftr0 ftr : rioFooter) (i b : Nat) (hi : i < 4)
    (hfr : ftr.Header.Frame = ftrFrame) (hb : b ≠ ftrFrame.getD i 0) :
    (rioFooter.RioUnmarshal ftr0 ((rioFooter.RioMarshal ftr).set (4 + i) b)).2 =
      .error (.errorf "rio: read footer header corrupted") := by
  obtain ⟨⟨L, F⟩, M⟩ := ftr
  have hF : F = ftrFrame := hfr
  subst hF
  unfold rioFooter.RioMarshal rioHeader.RioMarshal
  dsimp only
  simp only [List.append_assoc]
  rw [set_frame_in_encoding L ftrFrame _ i b rfl hi]
  unfold rioFooter.RioUnmarshal rioFooter.unmarshalHeader
  simp only [header_unmarshal_exact ftr0.Header L (ftrFrame.set i b) _
    (by rw [List.length_set]; rfl : (ftrFrame.set i b).length = 4)]
  rw [if_pos (frame_set_ne ftrFrame i b rfl hi hb)]

/-- C5: flipping any single byte of the 4-byte frame marker of a
well-formed encoded record, block or footer makes the corresponding decode
fail with the corrupt-stream ("header corrupted") error; and no decode
ever succeeds on input whose marker bytes (bytes 4..8) differ from the
expected marker. -/
theorem C5_frame_corruption (rec rec0 : rioRecord) (blk blk0 : rioBlock)
    (ftr ftr0 : rioFooter) (i bR bB bF : Nat) (hi : i < 4)
    (hRfr : rec.Header.Frame = recFrame) (hbR : bR ≠ recFrame.getD i 0)
    (hBfr : blk.Header.Frame = blkFrame) (hbB : bB ≠ blkFrame.getD i 0)
    (hFfr : ftr.Header.Frame = ftrFrame) (hbF : bF ≠ ftrFrame.getD i 0) :
    (rioRecord.RioUnmarshal rec0 ((rioRecord.RioMarshal rec).set (4 + i) bR)).2 =
      .error (.errorf "rio: read record header corrupted") ∧
    (rioBlock.RioUnmarshal blk0 ((rioBlock.RioMarshal blk).set (4 + i) bB)).2 =
      .error (.errorf "rio: read block header corrupted") ∧
    (rioFooter.RioUnmarshal ftr0 ((rioFooter.RioMarshal ftr).set (4 + i) bF)).2 =
      .error (.errorf "rio: read footer header corrupted") ∧
    (∀ r0 r bs rest, rioRecord.RioUnmarshal r0 bs = (r, .ok rest) →
      (bs.drop 4).take 4 = recFrame) ∧
    (∀ b0 bb bs rest, rioBlock.RioUnmarshal b0 bs = (bb, .ok rest) →
      (bs.drop 4).take 4 = blkFrame) ∧
    (∀ f0 f bs rest, rioFooter.RioUnmarshal f0 bs = (f, .ok rest) →
      (bs.drop 4).take 4 = ftrFrame) :=
  ⟨record_flip_fails rec0 rec i bR hi hRfr hbR,
   block_flip_fails blk0 blk i bB hi hBfr hbB,
   footer_flip_fails ftr0 ftr i bF hi hFfr hbF,
   fun r0 r bs rest h => record_unmarshal_ok_marker r0 r bs rest h,
   fun b0 bb bs rest h => (block_unmarshal_ok_facts b0 bb bs rest h).2.1,
   fun f0 f bs rest h => footer_unmarshal_ok_marker f0 f bs rest h⟩

/-- C5 witness: the corruption-detection law evaluated at byte 0 of each
marker (overwritten with 0) on concrete record, block and footer values,
with the never-succeeds conjuncts instantiated and checked on the intact
encodings. -/
theorem C5_frame_corruption_witness :
    (rioRecord.RioUnmarshal ⟨⟨0, [0, 0, 0, 0]⟩, 0, 0, 0, []⟩
        ((rioRecord.RioMarshal ⟨⟨12, recFrame⟩, 1, 2, 3, [97]⟩).set 4 0)).2 =
      .error (.errorf "rio: read record header corrupted") ∧
    (rioBlock.RioUnmarshal ⟨⟨0, [0, 0, 0, 0]⟩, 0, [], []⟩
        ((rioBlock.RioMarshal ⟨⟨2, blkFrame⟩, 1, [118], [5, 6]⟩).set 4 0)).2 =
      .error (.errorf "rio: read block header corrupted") ∧
    (rioFooter.RioUnmarshal ⟨⟨0, [0, 0, 0, 0]⟩, 0⟩
        ((rioFooter.RioMarshal ⟨⟨8, ftrFrame⟩, 24⟩).set 4 0)).2 =
      .error (.errorf "rio: read footer header corrupted") ∧
    (∀ r0 r bs rest, rioRecord.RioUnmarshal r0 bs = (r, .ok rest) →
      (bs.drop 4).take 4 = recFrame) ∧
    (∀ b0 bb bs rest, rioBlock.RioUnmarshal b0 bs = (bb, .ok rest) →
      (bs.drop 4).take 4 = blkFrame) ∧
    (∀ f0 f bs rest, rioFooter.RioUnmarshal f0 bs = (f, .ok rest) →
      (bs.drop 4).take 4 = ftrFrame) :=
  C5_frame_corruption ⟨⟨12, recFrame⟩, 1, 2, 3, [97]⟩ ⟨⟨0, [0, 0, 0, 0]⟩, 0, 0, 0, []⟩
    ⟨⟨2, blkFrame⟩, 1, [118], [5, 6]⟩ ⟨⟨0, [0, 0, 0, 0]⟩, 0, [], []⟩
    ⟨⟨8, ftrFrame⟩, 24⟩ ⟨⟨0, [0, 0, 0, 0]⟩, 0⟩
    0 0 0 0 (by decide) rfl (by decide) rfl (by decide) rfl (by decide)

/-! ## Claim C7: record name read (code bug) and C8: error-path atomicity -/

/-- C7: evaluation at the failing input.  The input declares
`NameLength = 4` but supplies only two trailing name bytes; the record
decode nevertheless SUCCEEDS (the single `r.Read` does not check the byte
count), returns `Name = [7, 8, 0, 0]` padded with NUL bytes from the
zeroed buffer, and consumes only 26 of the promised `24 + align4(4) = 28`
bytes — refuting "fails if fewer name bytes are available". -/
theorem C7_short_name_read :
    (rioRecord.RioUnmarshal ⟨⟨0, [0, 0, 0, 0]⟩, 0, 0, 0, []⟩
        (u32le 0 ++ recFrame ++ u32le 1 ++ u32le 2 ++ u32le 3 ++ u32le 4 ++ [7, 8])).1 =
      ⟨⟨0, recFrame⟩, 1, 2, 3, [7, 8, 0, 0]⟩ ∧
    (rioRecord.RioUnmarshal ⟨⟨0, [0, 0, 0, 0]⟩, 0, 0, 0, []⟩
        (u32le 0 ++ recFrame ++ u32le 1 ++ u32le 2 ++ u32le 3 ++ u32le 4 ++ [7, 8])).2 =
      .ok ([] : List Nat) :=
  ⟨rfl, rfl⟩

/-- C8 counterexample: decoding a record whose frame marker is wrong fails,
yet the destination is NOT left unchanged — its `Header.Len` has already
been overwritten with the value read before the failure. -/
theorem C8_counterexample :
    (rioRecord.RioUnmarshal ⟨⟨0, [0, 0, 0, 0]⟩, 0, 0, 0, []⟩
        (u32le 12 ++ [0, 0, 0, 0])).2 =
      .error (.errorf "rio: read record header corrupted") ∧
    (rioRecord.RioUnmarshal ⟨⟨0, [0, 0, 0, 0]⟩, 0, 0, 0, []⟩
        (u32le 12 ++ [0, 0, 0, 0])).1 ≠
      ⟨⟨0, [0, 0, 0, 0]⟩, 0, 0, 0, []⟩ :=
  ⟨rfl, by decide⟩

/-- C8 (amended): decode returns the first error immediately — on a record
frame-marker mismatch it stops with the corruption error — but the
destination may be partially filled: the `Header` field already holds the
header read before the failure, while the remaining fields keep their old
values. -/
theorem C8_first_error_partial_fill (rec : rioRecord) (len : Nat) (fr rest : List Nat)
    (hfr : fr.length = 4) (hne : fr ≠ recFrame) :
    rioRecord.RioUnmarshal rec (u32le len ++ (fr ++ rest)) =
      ({ rec with Header := ⟨len % 2^32, fr⟩ },
        .error (.errorf "rio: read record header corrupted")) := by
  unfold rioRecord.RioUnmarshal rioRecord.unmarshalHeader
  simp only [header_unmarshal_exact rec.Header len fr rest hfr]
  rw [if_pos (by simpa using hne : (⟨len % 2^32, fr⟩ : rioHeader).Frame ≠ recFrame)]

/-- C8 witness: the first-error law evaluated on a record whose frame bytes
were replaced by zeros, against a destination with nonzero prior fields. -/
theorem C8_first_error_partial_fill_witness :
    ([0, 0, 0, 0] : List Nat).length = 4 ∧ ([0, 0, 0, 0] : List Nat) ≠ recFrame ∧
    rioRecord.RioUnmarshal ⟨⟨0, [9, 9, 9, 9]⟩, 5, 6, 7, [1]⟩
        (u32le 12 ++ ([0, 0, 0, 0] ++ [])) =
      (⟨⟨12 % 2^32, [0, 0, 0, 0]⟩, 5, 6, 7, [1]⟩,
        .error (.errorf "rio: read record header corrupted")) :=
  ⟨rfl, by decide,
   C8_first_error_partial_fill ⟨⟨0, [9, 9, 9, 9]⟩, 5, 6, 7, [1]⟩ 12 [0, 0, 0, 0] []
     rfl (by decide)⟩

end Rio
